import Mathlib

/-!
Shallow embedding of the sentiment-analysis data-cleaning pipeline
(`src/data_loading.py`, `src/data_preprocessing.py`).

A pandas `DataFrame` is modelled as an ordered list of column names
together with a list of rows, each row a list of cell values aligned with
the column list.  Cell values are modelled individually (object-dtype
semantics): a cell is a string, an integer, a parsed datetime, or null
(`NaN`/`NaT`).  Fallible operations return `Except`; functions that in
Python mutate their argument in place additionally return the post-call
state of that argument.
-/

namespace SentimentPipeline

/-- A parsed datetime value (models a pandas `Timestamp`). -/
structure DateTime where
  year : Nat
  month : Nat
  day : Nat
  hour : Nat
  minute : Nat
  second : Nat
deriving DecidableEq, Repr

/-- A single cell of a dataframe: string, integer, datetime or null
(models one element of an object-dtype pandas column). -/
inductive Value where
  | str : String → Value
  | int : Int → Value
  | dt : DateTime → Value
  | null : Value
deriving DecidableEq, Repr

/-- A dataframe: ordered column names and rows of cells.  Row `r` holds the
value of column `cols[j]` at position `j`. -/
structure DataFrame where
  cols : List String
  rows : List (List Value)
deriving DecidableEq, Repr

namespace DataFrame

/-- Index of the first column named `c`, if any (models pandas label lookup). -/
def colIdx (df : DataFrame) (c : String) : Option Nat :=
  df.cols.findIdx? (fun x => x = c)

/-- Column access `df[c]`: the values of column `c`, one per row
(empty when the column is absent; callers model pandas' `KeyError`
by checking `c ∈ df.cols` first). -/
def getCol (df : DataFrame) (c : String) : List Value :=
  match df.colIdx c with
  | some i => df.rows.map (fun r => r.getD i Value.null)
  | none => []

/-- Column assignment `df[c] = vs`: overwrite column `c` in place when it
exists, otherwise append it as a new last column (pandas semantics). -/
def setCol (df : DataFrame) (c : String) (vs : List Value) : DataFrame :=
  match df.colIdx c with
  | some i => { df with rows := List.zipWith (fun r v => r.set i v) df.rows vs }
  | none => { cols := df.cols ++ [c], rows := List.zipWith (fun r v => r ++ [v]) df.rows vs }

end DataFrame

/-- Keep the first occurrence of each row, dropping rows equal to one
already seen (the accumulator): models `DataFrame.drop_duplicates()`. -/
def dedupFirst : List (List Value) → List (List Value) → List (List Value)
  | _, [] => []
  | seen, r :: rest =>
    if r ∈ seen then dedupFirst seen rest
    else r :: dedupFirst (r :: seen) rest

/-- `remove_duplicates` (data_preprocessing.py:11): drop exact duplicate
rows, keeping first occurrences. -/
def remove_duplicates (df : DataFrame) : DataFrame :=
  { df with rows := dedupFirst [] df.rows }

/-- Remove the longest run of elements satisfying `p` from both ends. -/
def trimList {α : Type} (p : α → Bool) (l : List α) : List α :=
  ((l.dropWhile p).reverse.dropWhile p).reverse

/-- Models Python `str.strip()`: remove leading and trailing whitespace. -/
def pyStrip (s : String) : String :=
  String.mk (trimList Char.isWhitespace s.data)

/-- Models Python `str.strip` applied via the pandas `.str` accessor:
strings are trimmed, any non-string cell becomes null. -/
def stripValue : Value → Value
  | Value.str s => Value.str (pyStrip s)
  | _ => Value.null

/-- `clean_categorical_columns` (data_preprocessing.py:35): for each named
column present in the dataframe, strip whitespace on its values; absent
columns are skipped (warning only).  `none` selects the default column
list. -/
def clean_categorical_columns (df : DataFrame) (columns : Option (List String)) : DataFrame :=
  let cs := columns.getD ["Platform", "Sentiment", "Country"]
  cs.foldl
    (fun acc c =>
      if acc.cols.contains c then acc.setCol c ((acc.getCol c).map stripValue)
      else acc)
    df

/-- Days in a month, Gregorian calendar. -/
def daysInMonth (y m : Nat) : Nat :=
  if m = 2 then
    if y % 4 = 0 ∧ (y % 100 ≠ 0 ∨ y % 400 = 0) then 29 else 28
  else if m = 4 ∨ m = 6 ∨ m = 9 ∨ m = 11 then 30
  else 31

/-- Split a character list on a separator character (the semantics of
`String.splitOn` with a one-character separator). -/
def splitOnChar (sep : Char) : List Char → List (List Char)
  | [] => [[]]
  | c :: cs =>
    if c = sep then [] :: splitOnChar sep cs
    else
      match splitOnChar sep cs with
      | t :: ts => (c :: t) :: ts
      | [] => [[c]]

/-- Decimal value of a digit list. -/
def digitsVal (cs : List Char) : Nat :=
  cs.foldl (fun n c => n * 10 + (c.toNat - 48)) 0

/-- The semantics of `String.toNat?` on a character list: a nonempty
all-digit list parses to its decimal value. -/
def toNatChars? (cs : List Char) : Option Nat :=
  if cs ≠ [] ∧ cs.all Char.isDigit then some (digitsVal cs) else none

/-- Parse `"YYYY-MM-DD"` with range validation. -/
def parseDate (cs : List Char) : Option (Nat × Nat × Nat) :=
  match splitOnChar '-' cs with
  | [ys, ms, ds] => do
    let y ← toNatChars? ys
    let m ← toNatChars? ms
    let d ← toNatChars? ds
    if 1 ≤ m ∧ m ≤ 12 ∧ 1 ≤ d ∧ d ≤ daysInMonth y m then some (y, m, d) else none
  | _ => none

/-- Parse `"HH:MM:SS"` or `"HH:MM"` with range validation. -/
def parseTime (cs : List Char) : Option (Nat × Nat × Nat) :=
  match splitOnChar ':' cs with
  | [hs, ms, ss] => do
    let h ← toNatChars? hs
    let mi ← toNatChars? ms
    let se ← toNatChars? ss
    if h ≤ 23 ∧ mi ≤ 59 ∧ se ≤ 59 then some (h, mi, se) else none
  | [hs, ms] => do
    let h ← toNatChars? hs
    let mi ← toNatChars? ms
    if h ≤ 23 ∧ mi ≤ 59 then some (h, mi, 0) else none
  | _ => none

/-- Models `pandas.to_datetime` on one string: ISO dates with an optional
time part separated by a space or `T`.  Anything else fails to parse. -/
def parseTimestamp (s : String) : Option DateTime :=
  let parts :=
    if s.data.contains 'T' then splitOnChar 'T' s.data
    else splitOnChar ' ' s.data
  match parts with
  | [d] => (parseDate d).map (fun x => ⟨x.1, x.2.1, x.2.2, 0, 0, 0⟩)
  | [d, t] => do
    let x ← parseDate d
    let u ← parseTime t
    some ⟨x.1, x.2.1, x.2.2, u.1, u.2.1, u.2.2⟩
  | _ => none

/-- Models `pandas.to_datetime` on one cell: strings are parsed, already
parsed datetimes pass through, null stays null (`NaT`); any other or
unparseable cell is a conversion failure (`none`). -/
def toDatetimeValue : Value → Option Value
  | Value.str s => (parseTimestamp s).map Value.dt
  | Value.dt d => some (Value.dt d)
  | Value.null => some Value.null
  | Value.int _ => none

/-- Models `pandas.to_datetime` on a whole column: succeeds with the
converted column when every cell converts, otherwise raises. -/
def toDatetimeSeries : List Value → Except String (List Value)
  | [] => Except.ok []
  | v :: vs =>
    match toDatetimeValue v with
    | none => Except.error "could not convert value to datetime"
    | some v' =>
      match toDatetimeSeries vs with
      | Except.ok vs' => Except.ok (v' :: vs')
      | Except.error e => Except.error e

/-- The report built by `validate_data`.  Optional fields are `none` when
the corresponding key is omitted from the returned dictionary. -/
structure ValidationReport where
  missing_values : List (String × Nat)
  duplicates : Nat
  timestamp_valid : Option Bool
  empty_posts : Option Nat
deriving DecidableEq, Repr

/-- `True` for a cell counted by `df[df[c].str.len() == 0]`:
only the empty string qualifies (`str.len` of a non-string is `NaN`,
which compares unequal to `0`). -/
def isEmptyText : Value → Bool
  | Value.str s => s.length = 0
  | _ => false

/-- `validate_data` (data_preprocessing.py:67): per-column missing-value
counts, duplicate-row count, timestamp parseability, empty-text count.
The Python function assigns `df['Timestamp'] = pd.to_datetime(...)` on its
argument, so the second component is the post-call state of the input
dataframe (unchanged when the column is absent or fails to parse). -/
def validate_data (df : DataFrame) : ValidationReport × DataFrame :=
  let missing := df.cols.map (fun c => (c, ((df.getCol c).filter (fun v => v = Value.null)).length))
  let dups := df.rows.length - (dedupFirst [] df.rows).length
  let (tsValid, df') :=
    if df.cols.contains "Timestamp" then
      match toDatetimeSeries (df.getCol "Timestamp") with
      | Except.ok vs => (some true, df.setCol "Timestamp" vs)
      | Except.error _ => (some false, df)
    else (none, df)
  let empty :=
    if df'.cols.contains "Text" then
      some ((df'.getCol "Text").filter isEmptyText).length
    else none
  (⟨missing, dups, tsValid, empty⟩, df')

/-- The 6-category table (`sentiment_map` in `map_sentiments`,
data_preprocessing.py:139): lowercase label to one of Joy / Sadness /
Anger / Fear / Guilt / Neutral\/Other.  No key occurs twice, so
first-match association-list lookup agrees with the Python dict. -/
def sentiment_map : List (String × String) := [
  ("positive", "Joy"),
  ("happiness", "Joy"),
  ("joy", "Joy"),
  ("love", "Joy"),
  ("amusement", "Joy"),
  ("enjoyment", "Joy"),
  ("admiration", "Joy"),
  ("affection", "Joy"),
  ("awe", "Joy"),
  ("adoration", "Joy"),
  ("excitement", "Joy"),
  ("kind", "Joy"),
  ("pride", "Joy"),
  ("elation", "Joy"),
  ("euphoria", "Joy"),
  ("contentment", "Joy"),
  ("serenity", "Joy"),
  ("gratitude", "Joy"),
  ("hope", "Joy"),
  ("empowerment", "Joy"),
  ("compassion", "Joy"),
  ("tenderness", "Joy"),
  ("arousal", "Joy"),
  ("enthusiasm", "Joy"),
  ("fulfillment", "Joy"),
  ("reverence", "Joy"),
  ("hopeful", "Joy"),
  ("proud", "Joy"),
  ("grateful", "Joy"),
  ("empathetic", "Joy"),
  ("compassionate", "Joy"),
  ("playful", "Joy"),
  ("free-spirited", "Joy"),
  ("inspired", "Joy"),
  ("confident", "Joy"),
  ("thrill", "Joy"),
  ("overjoyed", "Joy"),
  ("inspiration", "Joy"),
  ("motivation", "Joy"),
  ("satisfaction", "Joy"),
  ("blessed", "Joy"),
  ("appreciation", "Joy"),
  ("confidence", "Joy"),
  ("accomplishment", "Joy"),
  ("wonderment", "Joy"),
  ("optimism", "Joy"),
  ("enchantment", "Joy"),
  ("playfuljoy", "Joy"),
  ("dreamchaser", "Joy"),
  ("elegance", "Joy"),
  ("whimsy", "Joy"),
  ("harmony", "Joy"),
  ("creativity", "Joy"),
  ("radiance", "Joy"),
  ("wonder", "Joy"),
  ("rejuvenation", "Joy"),
  ("coziness", "Joy"),
  ("adventure", "Joy"),
  ("melodic", "Joy"),
  ("festivejoy", "Joy"),
  ("freedom", "Joy"),
  ("dazzle", "Joy"),
  ("adrenaline", "Joy"),
  ("artisticburst", "Joy"),
  ("culinaryodyssey", "Joy"),
  ("resilience", "Joy"),
  ("spark", "Joy"),
  ("marvel", "Joy"),
  ("positivity", "Joy"),
  ("kindness", "Joy"),
  ("friendship", "Joy"),
  ("success", "Joy"),
  ("exploration", "Joy"),
  ("amazement", "Joy"),
  ("romance", "Joy"),
  ("captivation", "Joy"),
  ("tranquility", "Joy"),
  ("grandeur", "Joy"),
  ("energy", "Joy"),
  ("celebration", "Joy"),
  ("charm", "Joy"),
  ("ecstasy", "Joy"),
  ("colorful", "Joy"),
  ("hypnotic", "Joy"),
  ("connection", "Joy"),
  ("iconic", "Joy"),
  ("engagement", "Joy"),
  ("touched", "Joy"),
  ("triumph", "Joy"),
  ("heartwarming", "Joy"),
  ("breakthrough", "Joy"),
  ("joy in baking", "Joy"),
  ("imagination", "Joy"),
  ("vibrancy", "Joy"),
  ("mesmerizing", "Joy"),
  ("culinary adventure", "Joy"),
  ("winter magic", "Joy"),
  ("thrilling journey", "Joy"),
  ("nature\u0027s beauty", "Joy"),
  ("celestial wonder", "Joy"),
  ("creative inspiration", "Joy"),
  ("runway creativity", "Joy"),
  ("ocean\u0027s freedom", "Joy"),
  ("relief", "Joy"),
  ("mischievous", "Joy"),
  ("happy", "Joy"),
  ("joyfulreunion", "Joy"),
  ("solace", "Joy"),
  ("envisioning history", "Joy"),
  ("sadness", "Sadness"),
  ("disappointed", "Sadness"),
  ("despair", "Sadness"),
  ("grief", "Sadness"),
  ("loneliness", "Sadness"),
  ("melancholy", "Sadness"),
  ("yearning", "Sadness"),
  ("devastated", "Sadness"),
  ("heartbreak", "Sadness"),
  ("betrayal", "Sadness"),
  ("suffering", "Sadness"),
  ("emotionalstorm", "Sadness"),
  ("isolation", "Sadness"),
  ("disappointment", "Sadness"),
  ("lostlove", "Sadness"),
  ("exhaustion", "Sadness"),
  ("sorrow", "Sadness"),
  ("darkness", "Sadness"),
  ("desperation", "Sadness"),
  ("ruins", "Sadness"),
  ("desolation", "Sadness"),
  ("loss", "Sadness"),
  ("heartache", "Sadness"),
  ("solitude", "Sadness"),
  ("sympathy", "Sadness"),
  ("sad", "Sadness"),
  ("bittersweet", "Sadness"),
  ("negative", "Anger"),
  ("anger", "Anger"),
  ("disgust", "Anger"),
  ("bitter", "Anger"),
  ("resentment", "Anger"),
  ("frustration", "Anger"),
  ("jealousy", "Anger"),
  ("envy", "Anger"),
  ("bitterness", "Anger"),
  ("jealous", "Anger"),
  ("frustrated", "Anger"),
  ("envious", "Anger"),
  ("dismissive", "Anger"),
  ("hate", "Anger"),
  ("bad", "Anger"),
  ("mean-spirited", "Anger"),
  ("fear", "Fear"),
  ("boredom", "Fear"),
  ("anxiety", "Fear"),
  ("intimidation", "Fear"),
  ("helplessness", "Fear"),
  ("fearful", "Fear"),
  ("apprehensive", "Fear"),
  ("overwhelmed", "Fear"),
  ("suspense", "Fear"),
  ("pressure", "Fear"),
  ("obstacle", "Fear"),
  ("challenge", "Fear"),
  ("shame", "Guilt"),
  ("regret", "Guilt"),
  ("embarrassed", "Guilt"),
  ("miscalculation", "Guilt"),
  ("neutral", "Neutral/Other"),
  ("surprise", "Neutral/Other"),
  ("acceptance", "Neutral/Other"),
  ("anticipation", "Neutral/Other"),
  ("calmness", "Neutral/Other"),
  ("confusion", "Neutral/Other"),
  ("curiosity", "Neutral/Other"),
  ("indifference", "Neutral/Other"),
  ("numbness", "Neutral/Other"),
  ("nostalgia", "Neutral/Other"),
  ("ambivalence", "Neutral/Other"),
  ("determination", "Neutral/Other"),
  ("contemplation", "Neutral/Other"),
  ("reflection", "Neutral/Other"),
  ("mindfulness", "Neutral/Other"),
  ("pensive", "Neutral/Other"),
  ("innerjourney", "Neutral/Other"),
  ("immersion", "Neutral/Other"),
  ("emotion", "Neutral/Other"),
  ("journey", "Neutral/Other"),
  ("renewed effort", "Neutral/Other"),
  ("whispers of the past", "Neutral/Other"),
  ("intrigue", "Neutral/Other")
]

/-- The 3-category table (`sentiment_map_3` in `map_sentiments`,
data_preprocessing.py:198): lowercase label to Positive / Negative /
Neutral.  No key occurs twice. -/
def sentiment_map_3 : List (String × String) := [
  ("positive", "Positive"),
  ("happiness", "Positive"),
  ("joy", "Positive"),
  ("love", "Positive"),
  ("amusement", "Positive"),
  ("enjoyment", "Positive"),
  ("admiration", "Positive"),
  ("affection", "Positive"),
  ("awe", "Positive"),
  ("acceptance", "Positive"),
  ("adoration", "Positive"),
  ("excitement", "Positive"),
  ("kind", "Positive"),
  ("pride", "Positive"),
  ("elation", "Positive"),
  ("euphoria", "Positive"),
  ("contentment", "Positive"),
  ("serenity", "Positive"),
  ("gratitude", "Positive"),
  ("hope", "Positive"),
  ("empowerment", "Positive"),
  ("compassion", "Positive"),
  ("tenderness", "Positive"),
  ("arousal", "Positive"),
  ("enthusiasm", "Positive"),
  ("fulfillment", "Positive"),
  ("reverence", "Positive"),
  ("determination", "Positive"),
  ("zest", "Positive"),
  ("hopeful", "Positive"),
  ("proud", "Positive"),
  ("grateful", "Positive"),
  ("empathetic", "Positive"),
  ("compassionate", "Positive"),
  ("playful", "Positive"),
  ("free-spirited", "Positive"),
  ("inspired", "Positive"),
  ("confident", "Positive"),
  ("thrill", "Positive"),
  ("overjoyed", "Positive"),
  ("inspiration", "Positive"),
  ("motivation", "Positive"),
  ("satisfaction", "Positive"),
  ("blessed", "Positive"),
  ("appreciation", "Positive"),
  ("confidence", "Positive"),
  ("accomplishment", "Positive"),
  ("wonderment", "Positive"),
  ("optimism", "Positive"),
  ("enchantment", "Positive"),
  ("intrigue", "Positive"),
  ("playfuljoy", "Positive"),
  ("dreamchaser", "Positive"),
  ("elegance", "Positive"),
  ("whimsy", "Positive"),
  ("harmony", "Positive"),
  ("creativity", "Positive"),
  ("radiance", "Positive"),
  ("wonder", "Positive"),
  ("rejuvenation", "Positive"),
  ("coziness", "Positive"),
  ("adventure", "Positive"),
  ("melodic", "Positive"),
  ("festivejoy", "Positive"),
  ("freedom", "Positive"),
  ("dazzle", "Positive"),
  ("adrenaline", "Positive"),
  ("artisticburst", "Positive"),
  ("culinaryodyssey", "Positive"),
  ("resilience", "Positive"),
  ("spark", "Positive"),
  ("marvel", "Positive"),
  ("positivity", "Positive"),
  ("kindness", "Positive"),
  ("friendship", "Positive"),
  ("success", "Positive"),
  ("exploration", "Positive"),
  ("amazement", "Positive"),
  ("romance", "Positive"),
  ("captivation", "Positive"),
  ("tranquility", "Positive"),
  ("grandeur", "Positive"),
  ("energy", "Positive"),
  ("celebration", "Positive"),
  ("charm", "Positive"),
  ("ecstasy", "Positive"),
  ("colorful", "Positive"),
  ("hypnotic", "Positive"),
  ("connection", "Positive"),
  ("iconic", "Positive"),
  ("journey", "Positive"),
  ("engagement", "Positive"),
  ("touched", "Positive"),
  ("triumph", "Positive"),
  ("heartwarming", "Positive"),
  ("breakthrough", "Positive"),
  ("joy in baking", "Positive"),
  ("envisioning history", "Positive"),
  ("imagination", "Positive"),
  ("vibrancy", "Positive"),
  ("mesmerizing", "Positive"),
  ("culinary adventure", "Positive"),
  ("winter magic", "Positive"),
  ("thrilling journey", "Positive"),
  ("nature\u0027s beauty", "Positive"),
  ("celestial wonder", "Positive"),
  ("creative inspiration", "Positive"),
  ("runway creativity", "Positive"),
  ("ocean\u0027s freedom", "Positive"),
  ("relief", "Positive"),
  ("mischievous", "Positive"),
  ("happy", "Positive"),
  ("joyfulreunion", "Positive"),
  ("solace", "Positive"),
  ("negative", "Negative"),
  ("anger", "Negative"),
  ("fear", "Negative"),
  ("sadness", "Negative"),
  ("disgust", "Negative"),
  ("disappointed", "Negative"),
  ("bitter", "Negative"),
  ("shame", "Negative"),
  ("despair", "Negative"),
  ("grief", "Negative"),
  ("loneliness", "Negative"),
  ("jealousy", "Negative"),
  ("resentment", "Negative"),
  ("frustration", "Negative"),
  ("boredom", "Negative"),
  ("anxiety", "Negative"),
  ("intimidation", "Negative"),
  ("helplessness", "Negative"),
  ("envy", "Negative"),
  ("regret", "Negative"),
  ("bitterness", "Negative"),
  ("yearning", "Negative"),
  ("fearful", "Negative"),
  ("apprehensive", "Negative"),
  ("overwhelmed", "Negative"),
  ("jealous", "Negative"),
  ("devastated", "Negative"),
  ("frustrated", "Negative"),
  ("envious", "Negative"),
  ("dismissive", "Negative"),
  ("heartbreak", "Negative"),
  ("betrayal", "Negative"),
  ("suffering", "Negative"),
  ("emotionalstorm", "Negative"),
  ("isolation", "Negative"),
  ("disappointment", "Negative"),
  ("lostlove", "Negative"),
  ("exhaustion", "Negative"),
  ("sorrow", "Negative"),
  ("darkness", "Negative"),
  ("desperation", "Negative"),
  ("ruins", "Negative"),
  ("desolation", "Negative"),
  ("loss", "Negative"),
  ("heartache", "Negative"),
  ("solitude", "Negative"),
  ("suspense", "Negative"),
  ("obstacle", "Negative"),
  ("sympathy", "Negative"),
  ("pressure", "Negative"),
  ("renewed effort", "Negative"),
  ("miscalculation", "Negative"),
  ("challenge", "Negative"),
  ("embarrassed", "Negative"),
  ("sad", "Negative"),
  ("hate", "Negative"),
  ("bad", "Negative"),
  ("neutral", "Neutral"),
  ("surprise", "Neutral"),
  ("anticipation", "Neutral"),
  ("calmness", "Neutral"),
  ("confusion", "Neutral"),
  ("curiosity", "Neutral"),
  ("indifference", "Neutral"),
  ("numbness", "Neutral"),
  ("melancholy", "Neutral"),
  ("nostalgia", "Neutral"),
  ("ambivalence", "Neutral"),
  ("bittersweet", "Neutral"),
  ("contemplation", "Neutral"),
  ("reflection", "Neutral"),
  ("mindfulness", "Neutral"),
  ("pensive", "Neutral"),
  ("innerjourney", "Neutral"),
  ("immersion", "Neutral"),
  ("emotion", "Neutral"),
  ("whispers of the past", "Neutral")
]

/-- Models Python `str.lower()`: lowercase every character. -/
def pyLower (s : String) : String :=
  String.mk (s.data.map Char.toLower)

/-- Models `.str.lower()` on one cell: strings are lowercased, any
non-string cell becomes null. -/
def lowerValue : Value → Value
  | Value.str s => Value.str (pyLower s)
  | _ => Value.null

/-- The table selected by `map_type`
(data_preprocessing.py:253): `sentiment_map_3` exactly when the mode
string is `'3cat'`, otherwise `sentiment_map`. -/
def selectMap (map_type : String) : List (String × String) :=
  if map_type = "3cat" then sentiment_map_3 else sentiment_map

/-- `Series.map(mapping)` followed by `.fillna('Neutral/Other')` on one
cell: a string cell is looked up in the table (a miss is `NaN`, then
filled); a null cell maps to `NaN` and is filled too. -/
def mapFill (mapping : List (String × String)) : Value → Value
  | Value.str s =>
    match mapping.lookup s with
    | some g => Value.str g
    | none => Value.str "Neutral/Other"
  | _ => Value.str "Neutral/Other"

/-- `map_sentiments` (data_preprocessing.py:120): lowercase the sentiment
column into `Sentiment_Clean`, look each value up in the selected table
into `Sentiment_Group`, filling misses with `'Neutral/Other'`.  Raises
(`KeyError`) when the sentiment column is absent. -/
def map_sentiments (df : DataFrame) (sentiment_col : String) (map_type : String) :
    Except String DataFrame :=
  if df.cols.contains sentiment_col then
    let df_mapped := df
    let cleanVals := (df_mapped.getCol sentiment_col).map lowerValue
    let df_mapped := df_mapped.setCol "Sentiment_Clean" cleanVals
    let mapping := selectMap map_type
    let groupVals := (df_mapped.getCol "Sentiment_Clean").map (mapFill mapping)
    let df_mapped := df_mapped.setCol "Sentiment_Group" groupVals
    Except.ok df_mapped
  else Except.error "KeyError"

/-- `Series.dt.dayofweek` (0 = Monday .. 6 = Sunday) via Sakamoto's
method. -/
def dayOfWeek (y m d : Nat) : Nat :=
  let t := [0, 3, 2, 5, 0, 3, 5, 1, 4, 6, 2, 4]
  let y' := if m < 3 then y - 1 else y
  let sunday0 := (y' + y' / 4 - y' / 100 + y' / 400 + t.getD (m - 1) 0 + d) % 7
  (sunday0 + 6) % 7

/-- `.dt.year` on one cell (`NaT` gives `NaN`). -/
def dtYear : Value → Value
  | Value.dt d => Value.int d.year
  | _ => Value.null

/-- `.dt.month` on one cell. -/
def dtMonth : Value → Value
  | Value.dt d => Value.int d.month
  | _ => Value.null

/-- `.dt.day` on one cell. -/
def dtDay : Value → Value
  | Value.dt d => Value.int d.day
  | _ => Value.null

/-- `.dt.hour` on one cell. -/
def dtHour : Value → Value
  | Value.dt d => Value.int d.hour
  | _ => Value.null

/-- `.dt.dayofweek` on one cell. -/
def dtDayOfWeek : Value → Value
  | Value.dt d => Value.int (dayOfWeek d.year d.month d.day)
  | _ => Value.null

/-- `.isin([5, 6]).astype(int)` on one cell of the day-of-week column
(`NaN.isin` is `False`, so null becomes `0`). -/
def weekendValue : Value → Value
  | Value.int w => Value.int (if w = 5 ∨ w = 6 then 1 else 0)
  | _ => Value.int 0

/-- `add_time_features` (data_preprocessing.py:267): convert the timestamp
column to datetime (propagating any parse failure) and derive the six
columns `year`, `month`, `day`, `hour`, `day_of_week`, `is_weekend`.
Raises (`KeyError`) when the timestamp column is absent. -/
def add_time_features (df : DataFrame) (timestamp_col : String) :
    Except String DataFrame :=
  if df.cols.contains timestamp_col then
    match toDatetimeSeries (df.getCol timestamp_col) with
    | Except.error e => Except.error e
    | Except.ok ts =>
      let df_time := df.setCol timestamp_col ts
      let df_time := df_time.setCol "year" (ts.map dtYear)
      let df_time := df_time.setCol "month" (ts.map dtMonth)
      let df_time := df_time.setCol "day" (ts.map dtDay)
      let df_time := df_time.setCol "hour" (ts.map dtHour)
      let dow := ts.map dtDayOfWeek
      let df_time := df_time.setCol "day_of_week" dow
      let df_time := df_time.setCol "is_weekend" (dow.map weekendValue)
      Except.ok df_time
  else Except.error "KeyError"

/-- Errors raised by `load_data`. -/
inductive LoadError where
  | fileNotFound : String → LoadError
  | emptyData : String → LoadError
  | other : String → LoadError
deriving DecidableEq, Repr

/-- A filesystem: maps a path to the file's contents, `none` when no file
exists at that path. -/
def FileSystem : Type := String → Option String

/-- Substring test, models Python `'Unnamed' in col`. -/
def containsSub (s pat : String) : Bool :=
  decide (List.IsInfix pat.toList s.toList)

/-- Split one CSV line on commas (model: no quoting). -/
def splitCsvLine (line : List Char) : List String :=
  (splitOnChar (Char.ofNat 44) line).map String.mk

/-- Models `pandas.read_csv`: raises file-not-found when the path does not
resolve, empty-data when the file is zero bytes; otherwise the first line
is the header and each further line a row of string cells. -/
def read_csv (fs : FileSystem) (path : String) : Except LoadError DataFrame :=
  match fs path with
  | none => Except.error (LoadError.fileNotFound path)
  | some contents =>
    if contents.data.isEmpty then Except.error (LoadError.emptyData path)
    else
      match (splitOnChar (Char.ofNat 10) contents.data).filter
          (fun l => ¬l.isEmpty) with
      | [] => Except.error (LoadError.emptyData path)
      | header :: body =>
        Except.ok
          { cols := splitCsvLine header,
            rows := body.map (fun l => (splitCsvLine l).map Value.str) }

/-- Drop every column whose name contains `"Unnamed"`. -/
def dropUnnamedCols (df : DataFrame) : DataFrame :=
  let keep := (df.cols.enum).filter (fun p => ¬containsSub p.2 "Unnamed")
  { cols := keep.map (fun p => p.2),
    rows := df.rows.map (fun r => keep.map (fun p => r.getD p.1 Value.null)) }

/-- `load_data` (data_loading.py:11): read the CSV, re-raising
file-not-found and empty-data errors with a message, then optionally drop
unnamed housekeeping columns. -/
def load_data (fs : FileSystem) (filepath : String) (drop_unnamed : Bool) :
    Except LoadError DataFrame :=
  match read_csv fs filepath with
  | Except.error (LoadError.fileNotFound _) =>
    Except.error (LoadError.fileNotFound ("File not found: " ++ filepath))
  | Except.error (LoadError.emptyData _) =>
    Except.error (LoadError.emptyData ("Empty CSV file: " ++ filepath))
  | Except.error (LoadError.other e) =>
    Except.error (LoadError.other ("Error loading data: " ++ e))
  | Except.ok df =>
    Except.ok (if drop_unnamed then dropUnnamedCols df else df)

/-- `clean_data` (data_preprocessing.py:302): the pipeline entry point.
Stages run in the fixed order categorical-clean, dedupe, validate,
map-sentiment, time-features, each gated by its flag; the last two are
additionally gated on their column being present.  `validate_data`'s
report is discarded, but its in-place effect on the dataframe persists.
A parse failure in `add_time_features` propagates. -/
def clean_data (df : DataFrame)
    (remove_dups clean_categorical validate map_sentiment add_time : Bool) :
    Except String DataFrame :=
  let df1 := if clean_categorical then clean_categorical_columns df none else df
  let df2 := if remove_dups then remove_duplicates df1 else df1
  let df3 := if validate then (validate_data df2).2 else df2
  match (if map_sentiment ∧ df3.cols.contains "Sentiment"
         then map_sentiments df3 "Sentiment" "full" else Except.ok df3) with
  | Except.error e => Except.error e
  | Except.ok df4 =>
    match (if add_time ∧ df4.cols.contains "Timestamp"
           then add_time_features df4 "Timestamp" else Except.ok df4) with
    | Except.error e => Except.error e
    | Except.ok df5 => Except.ok df5

/-- A dataframe is well-formed (rectangular) when every row has one cell
per column. -/
def WF (df : DataFrame) : Prop :=
  ∀ r ∈ df.rows, r.length = df.cols.length

instance (df : DataFrame) : Decidable (WF df) :=
  List.decidableBAll _ df.rows

theorem dedupFirst_sublist (seen l : List (List Value)) :
    List.Sublist (dedupFirst seen l) l := by
  induction l generalizing seen with
  | nil => simp [dedupFirst]
  | cons r rest ih =>
    by_cases h : r ∈ seen
    · simpa [dedupFirst, h] using List.Sublist.cons r (ih seen)
    · simpa [dedupFirst, h] using List.Sublist.cons₂ r (ih (r :: seen))

theorem mem_dedupFirst {a : List Value} {seen l : List (List Value)} :
    a ∈ dedupFirst seen l ↔ a ∈ l ∧ a ∉ seen := by
  induction l generalizing seen with
  | nil => simp [dedupFirst]
  | cons r rest ih =>
    by_cases h : r ∈ seen
    · simp only [dedupFirst, if_pos h, ih, List.mem_cons]
      constructor
      · exact fun hx => ⟨Or.inr hx.1, hx.2⟩
      · rintro ⟨hx | hx, hs⟩
        · exact absurd (hx ▸ h) hs
        · exact ⟨hx, hs⟩
    · simp only [dedupFirst, if_neg h, List.mem_cons, ih]
      constructor
      · rintro (rfl | ⟨hx, hs⟩)
        · exact ⟨Or.inl rfl, h⟩
        · exact ⟨Or.inr hx, fun hc => hs (Or.inr hc)⟩
      · rintro ⟨rfl | hx, hs⟩
        · exact Or.inl rfl
        · by_cases har : a = r
          · exact Or.inl har
          · exact Or.inr ⟨hx, by simp [har, hs]⟩

theorem nodup_dedupFirst (seen l : List (List Value)) :
    (dedupFirst seen l).Nodup := by
  induction l generalizing seen with
  | nil => simp [dedupFirst]
  | cons r rest ih =>
    by_cases h : r ∈ seen
    · simpa [dedupFirst, h] using ih seen
    · simp only [dedupFirst, if_neg h, List.nodup_cons]
      exact ⟨fun hc => by simp [mem_dedupFirst] at hc, ih (r :: seen)⟩

/-- Index of the first occurrence of `r` (the list length when absent). -/
def firstIdx (r : List Value) : List (List Value) → Nat
  | [] => 0
  | x :: rest => if x = r then 0 else firstIdx r rest + 1

/-- A second definition rendering the spec sentence "order of first
occurrence is kept, later duplicates dropped" word for word: retain the
head — the first occurrence — drop every later copy of it, and recurse.
It is written independently of the embedded `drop_duplicates` so the two
can be compared. -/
def keepFirstSpec : List (List Value) → List (List Value)
  | [] => []
  | r :: rest => r :: keepFirstSpec (rest.filter (fun x => ¬x = r))
termination_by l => l.length
decreasing_by
  simp only [List.length_cons]
  exact Nat.lt_succ_of_le (List.length_filter_le _ _)

theorem mem_of_mem_keepFirstSpec :
    ∀ {l : List (List Value)} {s : List Value}, s ∈ keepFirstSpec l → s ∈ l := by
  intro l
  induction l using keepFirstSpec.induct with
  | case1 =>
    intro s h
    simp [keepFirstSpec] at h
  | case2 r rest ih =>
    intro s h
    rw [keepFirstSpec] at h
    rcases List.mem_cons.mp h with rfl | h'
    · exact List.mem_cons_self _ _
    · exact List.mem_cons_of_mem _ (List.mem_filter.mp (ih h')).1

theorem firstIdx_cons_self (r : List Value) (l : List (List Value)) :
    firstIdx r (r :: l) = 0 := by
  simp [firstIdx]

theorem firstIdx_cons_ne {a r : List Value} (h : ¬a = r) (l : List (List Value)) :
    firstIdx r (a :: l) = firstIdx r l + 1 := by
  simp [firstIdx, h]

/-- Filtering with a value-level predicate keeps all copies of a surviving
value, so the order of first occurrences is reflected back into the
unfiltered list. -/
theorem firstIdx_lt_of_filter (p : List Value → Bool) :
    ∀ (l : List (List Value)) (x y : List Value), x ∈ l →
      p x = true → p y = true →
      firstIdx x (l.filter p) < firstIdx y (l.filter p) →
      firstIdx x l < firstIdx y l := by
  intro l
  induction l with
  | nil =>
    intro x y hx
    simp at hx
  | cons a l ih =>
    intro x y hx hpx hpy hlt
    by_cases hpa : p a = true
    · rw [List.filter_cons_of_pos hpa] at hlt
      by_cases hxa : x = a
      · subst hxa
        rw [firstIdx_cons_self] at hlt
        have hya : ¬y = x := by
          intro he
          subst he
          rw [firstIdx_cons_self] at hlt
          exact Nat.lt_irrefl 0 hlt
        rw [firstIdx_cons_self, firstIdx_cons_ne (fun he => hya he.symm)]
        exact Nat.succ_pos _
      · rw [firstIdx_cons_ne (fun he => hxa he.symm)] at hlt
        by_cases hya : y = a
        · subst hya
          rw [firstIdx_cons_self] at hlt
          exact absurd hlt (Nat.not_lt_zero _)
        · rw [firstIdx_cons_ne (fun he => hya he.symm)] at hlt
          have hx' : x ∈ l := by
            rcases List.mem_cons.mp hx with rfl | h'
            · exact absurd rfl hxa
            · exact h'
          have h1 := ih x y hx' hpx hpy (Nat.lt_of_succ_lt_succ hlt)
          rw [firstIdx_cons_ne (fun he => hxa he.symm),
            firstIdx_cons_ne (fun he => hya he.symm)]
          exact Nat.succ_lt_succ h1
    · rw [List.filter_cons_of_neg hpa] at hlt
      have hxa : ¬x = a := fun he => hpa (he ▸ hpx)
      have hya : ¬y = a := fun he => hpa (he ▸ hpy)
      have hx' : x ∈ l := by
        rcases List.mem_cons.mp hx with rfl | h'
        · exact absurd rfl hxa
        · exact h'
      have h1 := ih x y hx' hpx hpy hlt
      rw [firstIdx_cons_ne (fun he => hxa he.symm),
        firstIdx_cons_ne (fun he => hya he.symm)]
      exact Nat.succ_lt_succ h1

/-- The spec-worded dedup lists its survivors in strictly increasing order
of their first occurrence in the input. -/
theorem keepFirstSpec_pairwise (l : List (List Value)) :
    List.Pairwise (fun r s => firstIdx r l < firstIdx s l) (keepFirstSpec l) := by
  induction l using keepFirstSpec.induct with
  | case1 => simp [keepFirstSpec]
  | case2 r rest ih =>
    rw [keepFirstSpec, List.pairwise_cons]
    constructor
    · intro s hs
      have hsr : ¬s = r := by
        simpa using (List.mem_filter.mp (mem_of_mem_keepFirstSpec hs)).2
      rw [firstIdx_cons_self, firstIdx_cons_ne (fun he => hsr he.symm)]
      exact Nat.succ_pos _
    · refine List.Pairwise.imp_of_mem ?_ ih
      intro a b ha hb hab
      have haf := List.mem_filter.mp (mem_of_mem_keepFirstSpec ha)
      have hbf := List.mem_filter.mp (mem_of_mem_keepFirstSpec hb)
      have har : ¬a = r := by simpa using haf.2
      have hbr : ¬b = r := by simpa using hbf.2
      have h1 : firstIdx a rest < firstIdx b rest :=
        firstIdx_lt_of_filter _ rest a b haf.1 (by simp [har]) (by simp [hbr]) hab
      rw [firstIdx_cons_ne (fun he => har he.symm),
        firstIdx_cons_ne (fun he => hbr he.symm)]
      exact Nat.succ_lt_succ h1

/-- The embedded `drop_duplicates` agrees with the spec-worded dedup;
the accumulator corresponds to pre-filtering the seen values away. -/
theorem dedupFirst_eq_keepFirstSpec :
    ∀ (l seen : List (List Value)),
      dedupFirst seen l = keepFirstSpec (l.filter (fun x => decide (x ∉ seen))) := by
  intro l
  induction l with
  | nil =>
    intro seen
    simp [dedupFirst, keepFirstSpec]
  | cons r rest ih =>
    intro seen
    by_cases h : r ∈ seen
    · rw [show dedupFirst seen (r :: rest) = dedupFirst seen rest from by
        simp [dedupFirst, h]]
      rw [List.filter_cons_of_neg (by simp [h])]
      exact ih seen
    · rw [show dedupFirst seen (r :: rest) = r :: dedupFirst (r :: seen) rest from by
        simp [dedupFirst, h]]
      rw [List.filter_cons_of_pos (by simp [h]), keepFirstSpec, ih (r :: seen)]
      have hpred : rest.filter (fun x => decide (x ∉ r :: seen)) =
          (rest.filter (fun x => decide (x ∉ seen))).filter (fun x => ¬x = r) := by
        rw [List.filter_filter]
        apply List.filter_congr
        intro x _
        by_cases h1 : x = r <;> by_cases h2 : x ∈ seen <;>
          simp [h1, h2, List.mem_cons]
      rw [hpred]

/-- C3: `remove_duplicates` keeps the column schema and yields a dataset
with no two identical rows in which every input row is still represented;
the result is a sublist of the input whose rows moreover appear in
strictly increasing order of their first occurrence in the input, and it
coincides with the spec-worded keep-first dedup — so it is exactly the
later duplicates that are dropped and the first occurrences that are
kept. -/
theorem remove_duplicates_correct (df : DataFrame) :
    (remove_duplicates df).cols = df.cols ∧
    (remove_duplicates df).rows.Nodup ∧
    List.Sublist (remove_duplicates df).rows df.rows ∧
    (∀ r ∈ df.rows, r ∈ (remove_duplicates df).rows) ∧
    (remove_duplicates df).rows = keepFirstSpec df.rows ∧
    List.Pairwise (fun r s => firstIdx r df.rows < firstIdx s df.rows)
      (remove_duplicates df).rows := by
  have hk : (remove_duplicates df).rows = keepFirstSpec df.rows := by
    show dedupFirst [] df.rows = keepFirstSpec df.rows
    rw [dedupFirst_eq_keepFirstSpec]
    congr 1
    simp
  refine ⟨rfl, nodup_dedupFirst [] df.rows, dedupFirst_sublist [] df.rows, ?_, hk, ?_⟩
  · intro r hr
    exact mem_dedupFirst.mpr ⟨hr, by simp⟩
  · rw [hk]
    exact keepFirstSpec_pairwise df.rows

/-- C3 witness: on the rows `[a, b, a]` the kept row is a member of the
output, and the output is `[a, b]` — the first occurrence of `a` is the
one retained (a keep-last dedup would give `[b, a]`). -/
theorem remove_duplicates_correct_witness :
    [Value.int 1] ∈
      (remove_duplicates ⟨["A"],
        [[Value.int 1], [Value.int 2], [Value.int 1]]⟩).rows ∧
    (remove_duplicates ⟨["A"],
        [[Value.int 1], [Value.int 2], [Value.int 1]]⟩).rows =
      [[Value.int 1], [Value.int 2]] :=
  ⟨(remove_duplicates_correct ⟨["A"],
      [[Value.int 1], [Value.int 2], [Value.int 1]]⟩).2.2.2.1
      [Value.int 1] (by decide),
   by decide⟩

theorem colIdx_isSome_iff {df : DataFrame} {c : String} :
    (df.colIdx c).isSome ↔ c ∈ df.cols := by
  unfold DataFrame.colIdx
  rw [List.findIdx?_isSome]
  simp only [List.any_eq_true, decide_eq_true_eq]
  constructor
  · rintro ⟨x, hx, rfl⟩
    exact hx
  · intro h
    exact ⟨c, h, rfl⟩

theorem contains_iff_colIdx {df : DataFrame} {c : String} :
    df.cols.contains c = true ↔ ∃ i, df.colIdx c = some i := by
  rw [List.contains_iff_exists_mem_beq]
  constructor
  · rintro ⟨x, hx, hbeq⟩
    have hcx : c = x := by simpa using hbeq
    rcases Option.isSome_iff_exists.mp (colIdx_isSome_iff.mpr (hcx ▸ hx)) with ⟨i, hi⟩
    exact ⟨i, hi⟩
  · rintro ⟨i, hi⟩
    have hmem : c ∈ df.cols := colIdx_isSome_iff.mp (by simp [hi])
    exact ⟨c, hmem, by simp⟩

theorem colIdx_lt {df : DataFrame} {c : String} {i : Nat}
    (h : df.colIdx c = some i) : i < df.cols.length := by
  unfold DataFrame.colIdx at h
  rcases List.findIdx?_eq_some_iff_getElem.mp h with ⟨hlt, _, _⟩
  exact hlt

theorem colIdx_getD {df : DataFrame} {c : String} {i : Nat}
    (h : df.colIdx c = some i) : df.cols.getD i "" = c := by
  unfold DataFrame.colIdx at h
  rcases List.findIdx?_eq_some_iff_getElem.mp h with ⟨hlt, hp, _⟩
  have hgd : df.cols.getD i "" = df.cols[i] := by
    simp [List.getD_eq_getElem?_getD, List.getElem?_eq_getElem hlt]
  rw [hgd]
  simpa using hp

theorem colIdx_injective {df : DataFrame} {c c' : String} {i j : Nat}
    (hc : df.colIdx c = some i) (hc' : df.colIdx c' = some j)
    (hne : c ≠ c') : i ≠ j := by
  intro hij
  apply hne
  rw [← colIdx_getD hc, ← colIdx_getD hc', hij]

theorem getCol_of_colIdx {df : DataFrame} {c : String} {i : Nat}
    (h : df.colIdx c = some i) :
    df.getCol c = df.rows.map (fun r => r.getD i Value.null) := by
  unfold DataFrame.getCol
  rw [h]

theorem getCol_of_colIdx_none {df : DataFrame} {c : String}
    (h : df.colIdx c = none) : df.getCol c = [] := by
  unfold DataFrame.getCol
  rw [h]

theorem length_getCol {df : DataFrame} {c : String} {i : Nat}
    (h : df.colIdx c = some i) : (df.getCol c).length = df.rows.length := by
  rw [getCol_of_colIdx h, List.length_map]

theorem setCol_of_colIdx {df : DataFrame} {c : String} {i : Nat} {vs : List Value}
    (h : df.colIdx c = some i) :
    df.setCol c vs =
      { cols := df.cols,
        rows := List.zipWith (fun r v => r.set i v) df.rows vs } := by
  unfold DataFrame.setCol
  rw [h]

theorem setCol_of_colIdx_none {df : DataFrame} {c : String} {vs : List Value}
    (h : df.colIdx c = none) :
    df.setCol c vs =
      { cols := df.cols ++ [c],
        rows := List.zipWith (fun r v => r ++ [v]) df.rows vs } := by
  unfold DataFrame.setCol
  rw [h]

/-- Mapping over a `zipWith` whose composite agrees pointwise with another
binary function. -/
theorem map_zipWith_ptwise {α β γ δ : Type} (f : α → β → γ) (g : γ → δ)
    (h : α → β → δ) :
    ∀ (as : List α) (bs : List β),
      (∀ a ∈ as, ∀ b ∈ bs, g (f a b) = h a b) →
      (List.zipWith f as bs).map g = List.zipWith h as bs := by
  intro as
  induction as with
  | nil => intro bs _; simp
  | cons a as ih =>
    intro bs hab
    cases bs with
    | nil => simp
    | cons b bs =>
      simp only [List.zipWith_cons_cons, List.map_cons]
      refine congrArg₂ _ (hab a (by simp) b (by simp)) ?_
      exact ih bs (fun x hx y hy => hab x (by simp [hx]) y (by simp [hy]))

/-- A `zipWith` that ignores its second list is a map, when the second
list is long enough. -/
theorem zipWith_left_eq_map {α β γ : Type} (g : α → γ) :
    ∀ (as : List α) (bs : List β), as.length ≤ bs.length →
      List.zipWith (fun a _ => g a) as bs = as.map g := by
  intro as
  induction as with
  | nil => intro bs _; simp
  | cons a as ih =>
    intro bs hlen
    cases bs with
    | nil => simp at hlen
    | cons b bs =>
      simp only [List.zipWith_cons_cons, List.map_cons]
      exact congrArg _ (ih bs (by simpa using hlen))

/-- A `zipWith` that returns its second element is the identity on the
second list, when the first list is long enough. -/
theorem zipWith_right_eq_self {α β : Type} :
    ∀ (as : List α) (bs : List β), bs.length ≤ as.length →
      List.zipWith (fun _ b => b) as bs = bs := by
  intro as
  induction as with
  | nil =>
    intro bs hlen
    simp_all
  | cons a as ih =>
    intro bs hlen
    cases bs with
    | nil => simp
    | cons b bs =>
      simp only [List.zipWith_cons_cons]
      exact congrArg _ (ih bs (by simpa using hlen))

/-- `colIdx` only inspects the column names. -/
theorem colIdx_mk_eq (df : DataFrame) (rows' : List (List Value)) (c : String) :
    DataFrame.colIdx ⟨df.cols, rows'⟩ c = df.colIdx c := rfl

/-- Overwriting one column leaves every differently named column
unchanged. -/
theorem getCol_setCol_ne {df : DataFrame} {c c' : String} {i : Nat} {vs : List Value}
    (hi : df.colIdx c = some i) (hne : c' ≠ c)
    (hlen : vs.length = df.rows.length) :
    (df.setCol c vs).getCol c' = df.getCol c' := by
  rw [setCol_of_colIdx hi]
  rcases hj : df.colIdx c' with _ | j
  · rw [getCol_of_colIdx_none ((colIdx_mk_eq df _ c').trans hj),
      getCol_of_colIdx_none hj]
  · rw [getCol_of_colIdx ((colIdx_mk_eq df _ c').trans hj),
      getCol_of_colIdx hj]
    show (List.zipWith (fun r v => r.set i v) df.rows vs).map
        (fun r => r.getD j Value.null) = df.rows.map (fun r => r.getD j Value.null)
    have hij : i ≠ j := colIdx_injective hi hj (fun h => hne h.symm)
    rw [map_zipWith_ptwise _ _ (fun r _ => r.getD j Value.null) df.rows vs
      (fun r _ v _ => by simp [List.getD_eq_getElem?_getD, List.getElem?_set_ne hij])]
    exact zipWith_left_eq_map _ df.rows vs (le_of_eq hlen.symm)

/-- Overwriting a column of a well-formed dataframe stores exactly the
assigned values. -/
theorem getCol_setCol_self {df : DataFrame} {c : String} {i : Nat} {vs : List Value}
    (hwf : WF df) (hi : df.colIdx c = some i)
    (hlen : vs.length = df.rows.length) :
    (df.setCol c vs).getCol c = vs := by
  rw [setCol_of_colIdx hi]
  rw [getCol_of_colIdx ((colIdx_mk_eq df _ c).trans hi)]
  show (List.zipWith (fun r v => r.set i v) df.rows vs).map
      (fun r => r.getD i Value.null) = vs
  rw [map_zipWith_ptwise _ _ (fun _ v => v) df.rows vs ?_]
  · exact zipWith_right_eq_self df.rows vs (le_of_eq hlen)
  · intro r hr v _
    have hilt : i < r.length := by
      rw [hwf r hr]
      exact colIdx_lt hi
    simp [List.getD_eq_getElem?_getD, List.getElem?_set_self (by simpa using hilt)]

theorem dropWhile_dropWhile {α : Type} (p : α → Bool) (l : List α) :
    (l.dropWhile p).dropWhile p = l.dropWhile p := by
  induction l with
  | nil => simp
  | cons a l ih =>
    by_cases h : p a
    · simp [List.dropWhile_cons_of_pos h, ih]
    · simp [List.dropWhile_cons_of_neg h, h]

theorem dropWhile_head?_not {α : Type} (p : α → Bool) (l : List α) :
    ∀ x, (l.dropWhile p).head? = some x → p x = false := by
  induction l with
  | nil => intro x hx; simp at hx
  | cons a l ih =>
    intro x hx
    by_cases h : p a
    · rw [List.dropWhile_cons_of_pos h] at hx
      exact ih x hx
    · rw [List.dropWhile_cons_of_neg h] at hx
      simp only [List.head?_cons, Option.some.injEq] at hx
      rw [← hx]
      exact Bool.eq_false_iff.mpr h

theorem dropWhile_eq_self_of_head? {α : Type} (p : α → Bool) (l : List α)
    (h : ∀ x, l.head? = some x → p x = false) : l.dropWhile p = l := by
  cases l with
  | nil => simp
  | cons a l =>
    have := h a rfl
    rw [List.dropWhile_cons_of_neg (by simp [this])]

theorem getLast?_dropWhile {α : Type} (p : α → Bool) (l : List α)
    (h : l.dropWhile p ≠ []) : (l.dropWhile p).getLast? = l.getLast? := by
  induction l with
  | nil => simp at h
  | cons a l ih =>
    by_cases hp : p a
    · rw [List.dropWhile_cons_of_pos hp] at h ⊢
      rcases List.eq_nil_or_concat l with rfl | ⟨l', b, rfl⟩
      · simp at h
      · rw [ih h, List.concat_eq_append]
        rw [show a :: (l' ++ [b]) = (a :: l') ++ [b] from rfl]
        rw [List.getLast?_concat, List.getLast?_concat]
    · rw [List.dropWhile_cons_of_neg hp]

theorem trimList_head?_not {α : Type} (p : α → Bool) (l : List α) :
    ∀ x, (trimList p l).head? = some x → p x = false := by
  intro x hx
  unfold trimList at hx
  rw [List.head?_reverse] at hx
  have hne : (l.dropWhile p).reverse.dropWhile p ≠ [] := by
    intro hnil
    rw [hnil] at hx
    simp at hx
  rw [getLast?_dropWhile p _ hne, List.getLast?_reverse] at hx
  exact dropWhile_head?_not p l x hx

theorem trimList_idem {α : Type} (p : α → Bool) (l : List α) :
    trimList p (trimList p l) = trimList p l := by
  conv_lhs => rw [trimList]
  rw [dropWhile_eq_self_of_head? p (trimList p l) (trimList_head?_not p l)]
  unfold trimList
  rw [List.reverse_reverse, dropWhile_dropWhile]

theorem pyStrip_idem (s : String) : pyStrip (pyStrip s) = pyStrip s := by
  unfold pyStrip
  exact congrArg String.mk (trimList_idem Char.isWhitespace s.data)

theorem stripValue_idem (v : Value) : stripValue (stripValue v) = stripValue v := by
  cases v <;> simp [stripValue, pyStrip_idem]

/-- The loop body of `clean_categorical_columns` for one column name. -/
def catStep (acc : DataFrame) (c : String) : DataFrame :=
  if acc.cols.contains c then acc.setCol c ((acc.getCol c).map stripValue)
  else acc

theorem clean_categorical_eq_foldl (df : DataFrame) (columns : Option (List String)) :
    clean_categorical_columns df columns =
      (columns.getD ["Platform", "Sentiment", "Country"]).foldl catStep df := rfl

theorem cols_catStep (df : DataFrame) (c : String) :
    (catStep df c).cols = df.cols := by
  unfold catStep
  by_cases h : df.cols.contains c = true
  · rcases contains_iff_colIdx.mp h with ⟨i, hi⟩
    rw [if_pos h, setCol_of_colIdx hi]
  · rw [if_neg h]

/-- Setting a cell to the stripped value of that very cell reads back as
that stripped value, with or without the index in range (out of range both
sides are null). -/
theorem set_getD_strip (r : List Value) (i : Nat) :
    (r.set i (stripValue (r.getD i Value.null))).getD i Value.null =
      stripValue (r.getD i Value.null) := by
  by_cases h : i < r.length
  · simp [List.getD_eq_getElem?_getD, List.getElem?_set_self h]
  · rw [List.set_eq_of_length_le (Nat.le_of_not_lt h)]
    have hnull : r.getD i Value.null = Value.null := by
      simp [List.getD_eq_getElem?_getD, List.getElem?_eq_none (Nat.le_of_not_lt h)]
    rw [hnull]
    rfl

/-- Writing the stripped copy of a column back and reading it again gives
the stripped copy (row by row, even for ragged rows, since out-of-range
cells read as null and null strips to null). -/
theorem map_getD_zipWith_set_strip (i : Nat) (rows : List (List Value)) :
    (List.zipWith (fun r v => r.set i v) rows
        (rows.map (stripValue ∘ fun r => r.getD i Value.null))).map
      (fun r => r.getD i Value.null) =
    rows.map (stripValue ∘ fun r => r.getD i Value.null) := by
  induction rows with
  | nil => simp
  | cons r rs ih =>
    simp only [List.map_cons, List.zipWith_cons_cons, Function.comp_apply]
    exact congrArg₂ _ (set_getD_strip r i) ih

theorem getCol_catStep_of_contains {df : DataFrame} {c : String} {i : Nat}
    (hi : df.colIdx c = some i) :
    (catStep df c).getCol c = (df.getCol c).map stripValue := by
  have hc : df.cols.contains c = true := contains_iff_colIdx.mpr ⟨i, hi⟩
  unfold catStep
  rw [if_pos hc, setCol_of_colIdx hi,
    getCol_of_colIdx ((colIdx_mk_eq df _ c).trans hi)]
  show (List.zipWith (fun r v => r.set i v) df.rows
      ((df.getCol c).map stripValue)).map (fun r => r.getD i Value.null) =
    (df.getCol c).map stripValue
  rw [getCol_of_colIdx hi, List.map_map]
  exact map_getD_zipWith_set_strip i df.rows

/-- Re-setting a column with values already equal under re-setting:
a second `set` pass at the same index collapses. -/
theorem zipWith_set_set (i : Nat) :
    ∀ (rows : List (List Value)) (vs : List Value),
      List.zipWith (fun r v => r.set i v)
          (List.zipWith (fun r v => r.set i v) rows vs) vs =
        List.zipWith (fun r v => r.set i v) rows vs := by
  intro rows
  induction rows with
  | nil => intro vs; simp
  | cons r rs ih =>
    intro vs
    cases vs with
    | nil => simp
    | cons v vs =>
      simp only [List.zipWith_cons_cons]
      rw [List.set_set]
      exact congrArg _ (ih vs)

/-- A second `set` pass at a different index, when that pass already fixed
the rows, changes nothing. -/
theorem zipWith_set_comm_fixed {i j : Nat} (hij : i ≠ j) :
    ∀ (rows : List (List Value)) (ws vs : List Value),
      List.zipWith (fun r w => r.set j w) rows ws = rows →
      List.zipWith (fun r w => r.set j w)
          (List.zipWith (fun r v => r.set i v) rows vs) ws =
        List.zipWith (fun r v => r.set i v) rows vs := by
  intro rows
  induction rows with
  | nil => intro ws vs _; simp
  | cons r rs ih =>
    intro ws vs hfix
    cases ws with
    | nil => simp at hfix
    | cons w ws =>
      simp only [List.zipWith_cons_cons, List.cons.injEq] at hfix
      cases vs with
      | nil => simp
      | cons v vs =>
        simp only [List.zipWith_cons_cons, List.cons.injEq]
        constructor
        · rw [List.set_comm _ _ _ hij, hfix.1]
        · exact ih ws vs hfix.2

/-- `X` is clean at column `c`: one more clean pass at `c` is a no-op. -/
def CleanAt (c : String) (X : DataFrame) : Prop :=
  catStep X c = X

theorem cleanAt_catStep_self (df : DataFrame) (c : String) :
    CleanAt c (catStep df c) := by
  unfold CleanAt
  by_cases h : df.cols.contains c = true
  · rcases contains_iff_colIdx.mp h with ⟨i, hi⟩
    have hcols : (catStep df c).cols = df.cols := cols_catStep df c
    have hcontains : (catStep df c).cols.contains c = true := by rw [hcols]; exact h
    have hidx : (catStep df c).colIdx c = some i := by
      unfold DataFrame.colIdx
      rw [hcols]
      exact hi
    have hget : (catStep df c).getCol c = (df.getCol c).map stripValue :=
      getCol_catStep_of_contains hi
    conv_lhs => rw [catStep]
    rw [if_pos hcontains, hget, List.map_map]
    have hmapidem : ((df.getCol c).map stripValue).map stripValue
        = (df.getCol c).map stripValue := by
      rw [List.map_map]
      apply List.map_congr_left
      intro v _
      exact stripValue_idem v
    rw [List.map_map] at hmapidem
    rw [hmapidem]
    rw [setCol_of_colIdx hidx]
    conv_rhs => rw [catStep, if_pos h, setCol_of_colIdx hi]
    have hrows : (catStep df c).rows =
        List.zipWith (fun r v => r.set i v) df.rows ((df.getCol c).map stripValue) := by
      conv_lhs => rw [catStep, if_pos h, setCol_of_colIdx hi]
    rw [hrows, zipWith_set_set, hcols]
  · unfold catStep
    rw [if_neg h, if_neg h]

theorem cleanAt_catStep_preserve {c' : String} {df : DataFrame}
    (hclean : CleanAt c' df) (c : String) : CleanAt c' (catStep df c) := by
  by_cases hcc : c' = c
  · subst hcc
    exact cleanAt_catStep_self df c'
  by_cases hc : df.cols.contains c = true
  · rcases contains_iff_colIdx.mp hc with ⟨i, hi⟩
    by_cases hc' : df.cols.contains c' = true
    · rcases contains_iff_colIdx.mp hc' with ⟨j, hj⟩
      have hij : i ≠ j := colIdx_injective hi hj (fun h => hcc h.symm)
      unfold CleanAt
      have hcolsX : (catStep df c).cols = df.cols := cols_catStep df c
      have hcontains : (catStep df c).cols.contains c' = true := by rw [hcolsX]; exact hc'
      have hidxX : (catStep df c).colIdx c' = some j := by
        unfold DataFrame.colIdx
        rw [hcolsX]
        exact hj
      have hlen : ((df.getCol c).map stripValue).length = df.rows.length := by
        rw [List.length_map, length_getCol hi]
      have hgetX : (catStep df c).getCol c' = df.getCol c' := by
        conv_lhs => rw [catStep, if_pos hc]
        exact getCol_setCol_ne hi hcc hlen
      conv_lhs => rw [catStep, if_pos hcontains, hgetX, setCol_of_colIdx hidxX]
      have hXrows : (catStep df c).rows =
          List.zipWith (fun r v => r.set i v) df.rows ((df.getCol c).map stripValue) := by
        conv_lhs => rw [catStep, if_pos hc, setCol_of_colIdx hi]
      have hfix : List.zipWith (fun r w => r.set j w) df.rows
          ((df.getCol c').map stripValue) = df.rows := by
        have := hclean
        unfold CleanAt at this
        conv_lhs at this => rw [catStep, if_pos hc', setCol_of_colIdx hj]
        exact congrArg DataFrame.rows this
      have : List.zipWith (fun r w => r.set j w) (catStep df c).rows
          ((df.getCol c').map stripValue) = (catStep df c).rows := by
        rw [hXrows]
        exact zipWith_set_comm_fixed hij df.rows _ _ hfix
      rcases hX : catStep df c with ⟨xc, xr⟩
      rw [hX] at this
      simp only at this ⊢
      rw [this]
    · unfold CleanAt
      have hnot : ¬(catStep df c).cols.contains c' = true := by
        rw [cols_catStep]
        exact hc'
      conv_lhs => rw [catStep, if_neg hnot]
  · have hX : catStep df c = df := by
      rw [catStep, if_neg hc]
    unfold CleanAt
    rw [hX]
    exact hclean

theorem cleanAt_foldl_preserve {c' : String} {df : DataFrame}
    (hclean : CleanAt c' df) (L : List String) :
    CleanAt c' (L.foldl catStep df) := by
  induction L generalizing df with
  | nil => exact hclean
  | cons c L ih =>
    rw [List.foldl_cons]
    exact ih (cleanAt_catStep_preserve hclean c)

theorem cleanAt_foldl_mem {c : String} {L : List String} (hm : c ∈ L)
    (df : DataFrame) : CleanAt c (L.foldl catStep df) := by
  induction L generalizing df with
  | nil => simp at hm
  | cons c0 L ih =>
    rw [List.foldl_cons]
    rcases List.mem_cons.mp hm with rfl | hm'
    · exact cleanAt_foldl_preserve (cleanAt_catStep_self df c) L
    · exact ih hm' (catStep df c0)

theorem foldl_catStep_of_cleanAt {L : List String} {X : DataFrame}
    (h : ∀ c ∈ L, CleanAt c X) : L.foldl catStep X = X := by
  induction L with
  | nil => rfl
  | cons c L ih =>
    rw [List.foldl_cons, h c (by simp)]
    exact ih (fun c' hc' => h c' (by simp [hc']))

/-- C6: `clean_categorical_columns` is idempotent: a second pass with the
same column list (or the default list) leaves the dataframe unchanged, so
in particular every per-column unique-value count is unchanged. -/
theorem clean_categorical_columns_idem (df : DataFrame) (columns : Option (List String)) :
    clean_categorical_columns (clean_categorical_columns df columns) columns =
      clean_categorical_columns df columns := by
  rw [clean_categorical_eq_foldl, clean_categorical_eq_foldl df]
  exact foldl_catStep_of_cleanAt (fun c hc => cleanAt_foldl_mem hc df)

theorem toDatetimeSeries_ok_length {l vs : List Value}
    (h : toDatetimeSeries l = Except.ok vs) : vs.length = l.length := by
  induction l generalizing vs with
  | nil =>
    simp [toDatetimeSeries] at h
    simp [← h]
  | cons v l ih =>
    unfold toDatetimeSeries at h
    rcases hv : toDatetimeValue v with _ | v'
    · rw [hv] at h
      simp at h
    · rw [hv] at h
      rcases hs : toDatetimeSeries l with e | vs'
      · rw [hs] at h
        simp at h
      · rw [hs] at h
        simp only [Except.ok.injEq] at h
        rw [← h]
        simp [ih hs]

theorem toDatetimeSeries_error_of_mem {l : List Value} {v : Value}
    (hv : v ∈ l) (h : toDatetimeValue v = none) :
    ∃ e, toDatetimeSeries l = Except.error e := by
  induction l with
  | nil => simp at hv
  | cons w l ih =>
    rcases List.mem_cons.mp hv with rfl | hv'
    · exact ⟨"could not convert value to datetime", by rw [toDatetimeSeries, h]⟩
    · unfold toDatetimeSeries
      rcases hw : toDatetimeValue w with _ | w'
      · exact ⟨"could not convert value to datetime", rfl⟩
      · rcases ih hv' with ⟨e, he⟩
        exact ⟨e, by rw [he]⟩

/-- The dataframe state after `validate_data` (the Python function's
in-place effect on its argument). -/
theorem validate_data_snd (df : DataFrame) :
    (validate_data df).2 =
      if df.cols.contains "Timestamp" then
        match toDatetimeSeries (df.getCol "Timestamp") with
        | Except.ok vs => df.setCol "Timestamp" vs
        | Except.error _ => df
      else df := by
  unfold validate_data
  by_cases h : df.cols.contains "Timestamp" = true
  · rw [if_pos h, if_pos h]
    rcases hts : toDatetimeSeries (df.getCol "Timestamp") with e | vs <;> rfl
  · rw [if_neg h, if_neg h]

/-- The `timestamp_valid` entry of the report. -/
theorem validate_data_timestamp_valid (df : DataFrame) :
    (validate_data df).1.timestamp_valid =
      if df.cols.contains "Timestamp" then
        match toDatetimeSeries (df.getCol "Timestamp") with
        | Except.ok _ => some true
        | Except.error _ => some false
      else none := by
  unfold validate_data
  by_cases h : df.cols.contains "Timestamp" = true
  · rw [if_pos h, if_pos h]
    rcases hts : toDatetimeSeries (df.getCol "Timestamp") with e | vs <;> rfl
  · rw [if_neg h, if_neg h]

theorem cols_validate_data_snd (df : DataFrame) :
    (validate_data df).2.cols = df.cols := by
  rw [validate_data_snd]
  by_cases h : df.cols.contains "Timestamp" = true
  · rw [if_pos h]
    rcases contains_iff_colIdx.mp h with ⟨i, hi⟩
    rcases hts : toDatetimeSeries (df.getCol "Timestamp") with e | vs
    · rfl
    · show (df.setCol "Timestamp" vs).cols = df.cols
      rw [setCol_of_colIdx hi]
  · rw [if_neg h]

/-- The `empty_posts` entry of the report. -/
theorem validate_data_empty_posts (df : DataFrame) :
    (validate_data df).1.empty_posts =
      if df.cols.contains "Text" then
        some (((validate_data df).2.getCol "Text").filter isEmptyText).length
      else none := by
  conv_lhs => rw [validate_data]
  rw [validate_data_snd]
  by_cases h : df.cols.contains "Timestamp" = true
  · rw [if_pos h, if_pos h]
    rcases hts : toDatetimeSeries (df.getCol "Timestamp") with e | vs
    · rfl
    · have : (df.setCol "Timestamp" vs).cols = df.cols := by
        rcases contains_iff_colIdx.mp h with ⟨i, hi⟩
        rw [setCol_of_colIdx hi]
      show (if (df.setCol "Timestamp" vs).cols.contains "Text" = true then
          some (((df.setCol "Timestamp" vs).getCol "Text").filter isEmptyText).length
        else none) = _
      rw [this]
  · rw [if_neg h, if_neg h]

theorem contains_eq_true_iff_mem {df : DataFrame} {c : String} :
    df.cols.contains c = true ↔ c ∈ df.cols := by
  rw [contains_iff_colIdx]
  constructor
  · rintro ⟨i, hi⟩
    exact colIdx_isSome_iff.mp (by simp [hi])
  · intro h
    rcases Option.isSome_iff_exists.mp (colIdx_isSome_iff.mpr h) with ⟨i, hi⟩
    exact ⟨i, hi⟩

/-- C1 (counterexample): `validate_data` DOES mutate its input when the
`Timestamp` column holds parseable strings — the Python body assigns
`df['Timestamp'] = pd.to_datetime(df['Timestamp'])` on the argument
itself, replacing the string cells by datetime values. -/
theorem validate_data_mutates_input :
    (validate_data ⟨["Timestamp"], [[Value.str "2024-01-02"]]⟩).2 ≠
      (⟨["Timestamp"], [[Value.str "2024-01-02"]]⟩ : DataFrame) := by
  decide

/-- C1 (amended): `validate_data` returns its diagnostic report and leaves
the column schema and every column other than `Timestamp` unchanged; the
input comes back entirely unchanged when `Timestamp` is absent or fails to
parse, and when parsing succeeds the `Timestamp` column alone is
overwritten in place with the converted datetime values. -/
theorem validate_data_frame_effect (df : DataFrame) :
    (validate_data df).2.cols = df.cols ∧
    (∀ c : String, c ≠ "Timestamp" → (validate_data df).2.getCol c = df.getCol c) ∧
    ("Timestamp" ∉ df.cols → (validate_data df).2 = df) ∧
    (∀ e, toDatetimeSeries (df.getCol "Timestamp") = Except.error e →
      (validate_data df).2 = df) ∧
    (WF df → ∀ vs, toDatetimeSeries (df.getCol "Timestamp") = Except.ok vs →
      "Timestamp" ∈ df.cols →
      (validate_data df).2.getCol "Timestamp" = vs) := by
  refine ⟨cols_validate_data_snd df, ?_, ?_, ?_, ?_⟩
  · intro c hc
    rw [validate_data_snd]
    by_cases h : df.cols.contains "Timestamp" = true
    · rw [if_pos h]
      rcases contains_iff_colIdx.mp h with ⟨i, hi⟩
      rcases hts : toDatetimeSeries (df.getCol "Timestamp") with e | vs
      · rfl
      · show (df.setCol "Timestamp" vs).getCol c = df.getCol c
        have hlen : vs.length = df.rows.length := by
          rw [toDatetimeSeries_ok_length hts, length_getCol hi]
        exact getCol_setCol_ne hi hc hlen
    · rw [if_neg h]
  · intro hmem
    rw [validate_data_snd,
      if_neg (fun hc => hmem (contains_eq_true_iff_mem.mp hc))]
  · intro e he
    rw [validate_data_snd]
    by_cases h : df.cols.contains "Timestamp" = true
    · rw [if_pos h, he]
    · rw [if_neg h]
  · intro hwf vs hts hmem
    have h : df.cols.contains "Timestamp" = true := contains_eq_true_iff_mem.mpr hmem
    rw [validate_data_snd, if_pos h, hts]
    rcases contains_iff_colIdx.mp h with ⟨i, hi⟩
    have hlen : vs.length = df.rows.length := by
      rw [toDatetimeSeries_ok_length hts, length_getCol hi]
    show (df.setCol "Timestamp" vs).getCol "Timestamp" = vs
    exact getCol_setCol_self hwf hi hlen

/-- C1 amended witness: on a concrete two-column dataframe the `Text`
column is untouched and the parsed `Timestamp` values are stored. -/
theorem validate_data_frame_effect_witness :
    (validate_data ⟨["Timestamp", "Text"],
        [[Value.str "2024-01-02", Value.str "hi"]]⟩).2.getCol "Text" =
      [Value.str "hi"] ∧
    (validate_data ⟨["Timestamp", "Text"],
        [[Value.str "2024-01-02", Value.str "hi"]]⟩).2.getCol "Timestamp" =
      [Value.dt ⟨2024, 1, 2, 0, 0, 0⟩] :=
  ⟨(validate_data_frame_effect _).2.1 "Text" (by decide),
   (validate_data_frame_effect _).2.2.2.2 (by decide)
     [Value.dt ⟨2024, 1, 2, 0, 0, 0⟩] rfl (by decide)⟩

/-- C4: an unparseable timestamp value is fatal in `add_time_features`
(the conversion error propagates to the caller) but soft in
`validate_data` (the error is caught, `timestamp_valid` is recorded as
`false`, and the input dataframe is left unchanged). -/
theorem timestamp_failure_fatal_vs_soft (df : DataFrame)
    (hmem : "Timestamp" ∈ df.cols)
    (hbad : ∃ v ∈ df.getCol "Timestamp", toDatetimeValue v = none) :
    (∃ e, add_time_features df "Timestamp" = Except.error e) ∧
    (validate_data df).1.timestamp_valid = some false ∧
    (validate_data df).2 = df := by
  have hc : df.cols.contains "Timestamp" = true := contains_eq_true_iff_mem.mpr hmem
  rcases hbad with ⟨v, hv, hnone⟩
  rcases toDatetimeSeries_error_of_mem hv hnone with ⟨e, he⟩
  refine ⟨⟨e, ?_⟩, ?_, ?_⟩
  · rw [add_time_features, if_pos hc, he]
  · rw [validate_data_timestamp_valid, if_pos hc, he]
  · rw [validate_data_snd, if_pos hc, he]

/-- C4 witness: with the unparseable timestamp string `"nope"`,
feature extraction errors while validation reports `timestamp_valid =
false` and returns the input unchanged. -/
theorem timestamp_failure_fatal_vs_soft_witness :
    (∃ e, add_time_features ⟨["Timestamp"], [[Value.str "nope"]]⟩ "Timestamp" =
        Except.error e) ∧
    (validate_data ⟨["Timestamp"], [[Value.str "nope"]]⟩).1.timestamp_valid =
      some false ∧
    (validate_data ⟨["Timestamp"], [[Value.str "nope"]]⟩).2 =
      ⟨["Timestamp"], [[Value.str "nope"]]⟩ :=
  timestamp_failure_fatal_vs_soft _ (by decide)
    ⟨Value.str "nope", by decide, by decide⟩

/-- C7: `validate_data` is total on dataframes missing the optional
columns: with no `Text` column the report omits the `empty_posts` key, and
with no `Timestamp` column the timestamp sub-report is skipped (no
`timestamp_valid` key) and the input is untouched. -/
theorem validate_data_optional_columns (df : DataFrame) :
    ("Text" ∉ df.cols → (validate_data df).1.empty_posts = none) ∧
    ("Timestamp" ∉ df.cols →
      (validate_data df).1.timestamp_valid = none ∧ (validate_data df).2 = df) := by
  constructor
  · intro h
    rw [validate_data_empty_posts,
      if_neg (fun hc => h (contains_eq_true_iff_mem.mp hc))]
  · intro h
    constructor
    · rw [validate_data_timestamp_valid,
        if_neg (fun hc => h (contains_eq_true_iff_mem.mp hc))]
    · rw [validate_data_snd,
        if_neg (fun hc => h (contains_eq_true_iff_mem.mp hc))]

/-- C7 witness: on a dataframe with neither `Text` nor `Timestamp`, both
optional report entries are omitted and the frame is unchanged. -/
theorem validate_data_optional_columns_witness :
    (validate_data ⟨["A"], [[Value.int 1]]⟩).1.empty_posts = none ∧
    (validate_data ⟨["A"], [[Value.int 1]]⟩).1.timestamp_valid = none ∧
    (validate_data ⟨["A"], [[Value.int 1]]⟩).2 = ⟨["A"], [[Value.int 1]]⟩ :=
  ⟨(validate_data_optional_columns _).1 (by decide),
   ((validate_data_optional_columns _).2 (by decide)).1,
   ((validate_data_optional_columns _).2 (by decide)).2⟩

theorem exists_of_mem_zipWith {α β γ : Type} {f : α → β → γ} {c : γ} :
    ∀ {as : List α} {bs : List β}, c ∈ List.zipWith f as bs →
      ∃ a ∈ as, ∃ b ∈ bs, c = f a b := by
  intro as
  induction as with
  | nil => intro bs h; simp at h
  | cons a as ih =>
    intro bs h
    cases bs with
    | nil => simp at h
    | cons b bs =>
      rcases List.mem_cons.mp h with rfl | h'
      · exact ⟨a, by simp, b, by simp, rfl⟩
      · rcases ih h' with ⟨x, hx, y, hy, rfl⟩
        exact ⟨x, by simp [hx], y, by simp [hy], rfl⟩

theorem length_rows_setCol {df : DataFrame} {c : String} {vs : List Value}
    (hlen : vs.length = df.rows.length) :
    (df.setCol c vs).rows.length = df.rows.length := by
  rcases h : df.colIdx c with _ | i
  · rw [setCol_of_colIdx_none h]
    simp [List.length_zipWith, hlen]
  · rw [setCol_of_colIdx h]
    simp [List.length_zipWith, hlen]

theorem wf_setCol {df : DataFrame} {c : String} {vs : List Value}
    (hwf : WF df) : WF (df.setCol c vs) := by
  rcases h : df.colIdx c with _ | i
  · rw [setCol_of_colIdx_none h]
    intro r hr
    rcases exists_of_mem_zipWith hr with ⟨a, ha, b, _, rfl⟩
    simp [hwf a ha]
  · rw [setCol_of_colIdx h]
    intro r hr
    rcases exists_of_mem_zipWith hr with ⟨a, ha, b, _, rfl⟩
    simp [hwf a ha]

/-- Appending a fresh column to a well-formed dataframe stores exactly the
assigned values. -/
theorem getCol_setCol_append_self {df : DataFrame} {c : String} {vs : List Value}
    (hwf : WF df) (hn : df.colIdx c = none)
    (hlen : vs.length = df.rows.length) :
    (df.setCol c vs).getCol c = vs := by
  rw [setCol_of_colIdx_none hn]
  have hidx : DataFrame.colIdx
      ⟨df.cols ++ [c], List.zipWith (fun r v => r ++ [v]) df.rows vs⟩ c =
      some df.cols.length := by
    show (df.cols ++ [c]).findIdx? (fun x => x = c) = some df.cols.length
    rw [List.findIdx?_append]
    unfold DataFrame.colIdx at hn
    rw [hn]
    simp
  rw [getCol_of_colIdx hidx]
  show (List.zipWith (fun r v => r ++ [v]) df.rows vs).map
      (fun r => r.getD df.cols.length Value.null) = vs
  rw [map_zipWith_ptwise _ _ (fun _ v => v) df.rows vs ?_]
  · exact zipWith_right_eq_self df.rows vs (le_of_eq hlen)
  · intro r hr v _
    have hr' : r.length = df.cols.length := hwf r hr
    rw [List.getD_eq_getElem?_getD, ← hr', List.getElem?_concat_length]
    rfl

/-- Assigning a column of matching length to a well-formed dataframe
(overwriting or appending) stores exactly the assigned values. -/
theorem getCol_setCol_self_any {df : DataFrame} {c : String} {vs : List Value}
    (hwf : WF df) (hlen : vs.length = df.rows.length) :
    (df.setCol c vs).getCol c = vs := by
  rcases h : df.colIdx c with _ | i
  · exact getCol_setCol_append_self hwf h hlen
  · exact getCol_setCol_self hwf h hlen

/-- Full characterization of `map_sentiments` on a well-formed dataframe
whose sentiment column exists: it succeeds and the `Sentiment_Group`
column is, row by row, the lowercased label looked up in the selected
table with `'Neutral/Other'` as the fallback. -/
theorem map_sentiments_ok {df : DataFrame} {col : String} (mt : String) {j : Nat}
    (hcol : df.colIdx col = some j) (hwf : WF df) :
    ∃ out, map_sentiments df col mt = Except.ok out ∧
      out.getCol "Sentiment_Group" =
        (df.getCol col).map (fun v => mapFill (selectMap mt) (lowerValue v)) := by
  have hc : df.cols.contains col = true := contains_iff_colIdx.mpr ⟨j, hcol⟩
  refine ⟨DataFrame.setCol
      (df.setCol "Sentiment_Clean" ((df.getCol col).map lowerValue))
      "Sentiment_Group"
      (((df.setCol "Sentiment_Clean" ((df.getCol col).map lowerValue)).getCol
          "Sentiment_Clean").map (mapFill (selectMap mt))), ?_, ?_⟩
  · rw [map_sentiments, if_pos hc]
  · have hlen1 : ((df.getCol col).map lowerValue).length = df.rows.length := by
      rw [List.length_map, length_getCol hcol]
    have hwf1 : WF (df.setCol "Sentiment_Clean" ((df.getCol col).map lowerValue)) :=
      wf_setCol hwf
    have hget1 : (df.setCol "Sentiment_Clean"
          ((df.getCol col).map lowerValue)).getCol "Sentiment_Clean" =
        (df.getCol col).map lowerValue :=
      getCol_setCol_self_any hwf hlen1
    have hlen2 : (((df.setCol "Sentiment_Clean"
          ((df.getCol col).map lowerValue)).getCol "Sentiment_Clean").map
            (mapFill (selectMap mt))).length =
        (df.setCol "Sentiment_Clean" ((df.getCol col).map lowerValue)).rows.length := by
      rw [hget1, List.length_map, hlen1, length_rows_setCol hlen1]
    rw [getCol_setCol_self_any hwf1 hlen2, hget1, List.map_map]
    rfl

/-- C2: for a well-formed dataframe, each row of `map_sentiments` output
whose source label is the string `s` carries in `Sentiment_Group` the
value of `pyLower s` in the selected table when that lowercased label is a
key, and the single default `'Neutral/Other'` otherwise — in both the
`'full'` and `'3cat'` modes.  Only `pyLower s` enters the lookup, so
labels differing in letter case map identically. -/
theorem map_sentiments_rows (df : DataFrame) (col mt : String) (i : Nat) (s : String)
    (hwf : WF df)
    (hv : (df.getCol col)[i]? = some (Value.str s)) :
    ∃ out, map_sentiments df col mt = Except.ok out ∧
      (out.getCol "Sentiment_Group")[i]? =
        some (Value.str (((selectMap mt).lookup (pyLower s)).getD "Neutral/Other")) := by
  rcases hcol : df.colIdx col with _ | j
  · rw [getCol_of_colIdx_none hcol] at hv
    simp at hv
  · rcases map_sentiments_ok mt hcol hwf with ⟨out, hok, hgroup⟩
    refine ⟨out, hok, ?_⟩
    rw [hgroup, List.getElem?_map, hv]
    show some (mapFill (selectMap mt) (lowerValue (Value.str s))) = _
    cases hlk : (selectMap mt).lookup (pyLower s) <;>
      simp [mapFill, lowerValue, hlk]

/-- C2 witness: concrete rows in both modes: `"POSITIVE"` (a key,
case-insensitively) maps to `Joy` in full mode and `Positive` in 3cat
mode; the label `"mean-spirited"` is absent from the 3-category table and
falls back to the default `'Neutral/Other'` even in `'3cat'` mode. -/
theorem map_sentiments_rows_witness :
    (∃ out, map_sentiments ⟨["Sentiment"], [[Value.str "POSITIVE"]]⟩
        "Sentiment" "full" = Except.ok out ∧
      (out.getCol "Sentiment_Group")[0]? = some (Value.str "Joy")) ∧
    (∃ out, map_sentiments ⟨["Sentiment"], [[Value.str "POSITIVE"]]⟩
        "Sentiment" "3cat" = Except.ok out ∧
      (out.getCol "Sentiment_Group")[0]? = some (Value.str "Positive")) ∧
    (∃ out, map_sentiments ⟨["Sentiment"], [[Value.str "mean-spirited"]]⟩
        "Sentiment" "3cat" = Except.ok out ∧
      (out.getCol "Sentiment_Group")[0]? = some (Value.str "Neutral/Other")) :=
  ⟨map_sentiments_rows ⟨["Sentiment"], [[Value.str "POSITIVE"]]⟩
      "Sentiment" "full" 0 "POSITIVE" (by decide) (by decide),
   map_sentiments_rows ⟨["Sentiment"], [[Value.str "POSITIVE"]]⟩
      "Sentiment" "3cat" 0 "POSITIVE" (by decide) (by decide),
   map_sentiments_rows ⟨["Sentiment"], [[Value.str "mean-spirited"]]⟩
      "Sentiment" "3cat" 0 "mean-spirited" (by decide) (by decide)⟩

/-- C10: every `map_type` other than exactly `'3cat'` — including
`'full'`, case variants like `'3CAT'` and arbitrary strings — silently
selects the 6-category table, so `map_sentiments` behaves exactly as in
`'full'` mode; no mode string makes the function error (it errors only
when the sentiment column is absent, independently of the mode). -/
theorem map_sentiments_mode_default (df : DataFrame) (col mt : String)
    (hmt : mt ≠ "3cat") :
    map_sentiments df col mt = map_sentiments df col "full" ∧
    ((∃ out, map_sentiments df col mt = Except.ok out) ↔
      df.cols.contains col = true) := by
  have hsel : selectMap mt = selectMap "full" := by
    unfold selectMap
    rw [if_neg hmt, if_neg (by decide)]
  constructor
  · unfold map_sentiments
    rw [hsel]
  · constructor
    · rintro ⟨out, hout⟩
      by_contra hc
      rw [map_sentiments, if_neg hc] at hout
      exact Except.noConfusion hout
    · intro hc
      rw [map_sentiments, if_pos hc]
      exact ⟨_, rfl⟩

/-- C10 witness: the unrecognized mode string `'3CAT'` behaves exactly
like `'full'` on a concrete dataframe, and succeeds. -/
theorem map_sentiments_mode_default_witness :
    map_sentiments ⟨["Sentiment"], [[Value.str "sadness"]]⟩ "Sentiment" "3CAT" =
      map_sentiments ⟨["Sentiment"], [[Value.str "sadness"]]⟩ "Sentiment" "full" ∧
    (∃ out, map_sentiments ⟨["Sentiment"], [[Value.str "sadness"]]⟩
        "Sentiment" "3CAT" = Except.ok out) :=
  ⟨(map_sentiments_mode_default ⟨["Sentiment"], [[Value.str "sadness"]]⟩
      "Sentiment" "3CAT" (by decide)).1,
   (map_sentiments_mode_default ⟨["Sentiment"], [[Value.str "sadness"]]⟩
      "Sentiment" "3CAT" (by decide)).2.mpr (by decide)⟩

/-- Appending a fresh column leaves every other column unchanged (on a
well-formed dataframe). -/
theorem getCol_setCol_append_ne {df : DataFrame} {c c' : String} {vs : List Value}
    (hwf : WF df) (hn : df.colIdx c = none) (hne : c' ≠ c)
    (hlen : vs.length = df.rows.length) :
    (df.setCol c vs).getCol c' = df.getCol c' := by
  rw [setCol_of_colIdx_none hn]
  rcases hj : df.colIdx c' with _ | j
  · have hidx : DataFrame.colIdx
        ⟨df.cols ++ [c], List.zipWith (fun r v => r ++ [v]) df.rows vs⟩ c' = none := by
      show (df.cols ++ [c]).findIdx? (fun x => x = c') = none
      rw [List.findIdx?_append]
      unfold DataFrame.colIdx at hj
      rw [hj]
      simp only [List.findIdx?_cons, List.findIdx?_nil, Option.none_orElse]
      have : (decide (c = c') : Bool) = false :=
        decide_eq_false (fun h => hne h.symm)
      simp [this]
    rw [getCol_of_colIdx_none hidx, getCol_of_colIdx_none hj]
  · have hjlt : j < df.cols.length := colIdx_lt hj
    have hidx : DataFrame.colIdx
        ⟨df.cols ++ [c], List.zipWith (fun r v => r ++ [v]) df.rows vs⟩ c' = some j := by
      show (df.cols ++ [c]).findIdx? (fun x => x = c') = some j
      rw [List.findIdx?_append]
      unfold DataFrame.colIdx at hj
      rw [hj]
      rfl
    rw [getCol_of_colIdx hidx, getCol_of_colIdx hj]
    show (List.zipWith (fun r v => r ++ [v]) df.rows vs).map
        (fun r => r.getD j Value.null) = df.rows.map (fun r => r.getD j Value.null)
    rw [map_zipWith_ptwise _ _ (fun r _ => r.getD j Value.null) df.rows vs ?_]
    · exact zipWith_left_eq_map _ df.rows vs (le_of_eq hlen.symm)
    · intro r hr v _
      have hlt : j < r.length := by
        rw [hwf r hr]
        exact hjlt
      show (r ++ [v]).getD j Value.null = r.getD j Value.null
      rw [List.getD_eq_getElem?_getD, List.getD_eq_getElem?_getD,
        List.getElem?_append_left hlt]

/-- Assigning one column (overwriting or appending) leaves every
differently named column of a well-formed dataframe unchanged. -/
theorem getCol_setCol_ne_any {df : DataFrame} {c c' : String} {vs : List Value}
    (hwf : WF df) (hne : c' ≠ c) (hlen : vs.length = df.rows.length) :
    (df.setCol c vs).getCol c' = df.getCol c' := by
  rcases h : df.colIdx c with _ | i
  · exact getCol_setCol_append_ne hwf h hne hlen
  · exact getCol_setCol_ne h hne hlen

/-- In any successful run of `add_time_features` on a well-formed
dataframe, the derived `is_weekend` column is exactly the weekend
indicator of the derived `day_of_week` column. -/
theorem add_time_features_weekend_rel (df : DataFrame) (c : String) (out : DataFrame)
    (hwf : WF df) (hok : add_time_features df c = Except.ok out) :
    out.getCol "is_weekend" = (out.getCol "day_of_week").map weekendValue := by
  unfold add_time_features at hok
  by_cases hc : df.cols.contains c = true
  · rw [if_pos hc] at hok
    rcases contains_iff_colIdx.mp hc with ⟨i, hcol⟩
    rcases hts : toDatetimeSeries (df.getCol c) with e | ts
    · rw [hts] at hok
      exact absurd hok (by simp)
    · rw [hts] at hok
      simp only [Except.ok.injEq] at hok
      subst hok
      have hlents : ts.length = df.rows.length := by
        rw [toDatetimeSeries_ok_length hts, length_getCol hcol]
      set F1 := df.setCol c ts with hF1
      set F2 := F1.setCol "year" (ts.map dtYear) with hF2
      set F3 := F2.setCol "month" (ts.map dtMonth) with hF3
      set F4 := F3.setCol "day" (ts.map dtDay) with hF4
      set F5 := F4.setCol "hour" (ts.map dtHour) with hF5
      set F6 := F5.setCol "day_of_week" (ts.map dtDayOfWeek) with hF6
      have w1 : WF F1 := wf_setCol hwf
      have w2 : WF F2 := wf_setCol w1
      have w3 : WF F3 := wf_setCol w2
      have w4 : WF F4 := wf_setCol w3
      have w5 : WF F5 := wf_setCol w4
      have w6 : WF F6 := wf_setCol w5
      have l1 : F1.rows.length = df.rows.length := length_rows_setCol hlents
      have l2 : F2.rows.length = df.rows.length := by
        rw [hF2, length_rows_setCol (by rw [List.length_map, hlents, l1]), l1]
      have l3 : F3.rows.length = df.rows.length := by
        rw [hF3, length_rows_setCol (by rw [List.length_map, hlents, l2]), l2]
      have l4 : F4.rows.length = df.rows.length := by
        rw [hF4, length_rows_setCol (by rw [List.length_map, hlents, l3]), l3]
      have l5 : F5.rows.length = df.rows.length := by
        rw [hF5, length_rows_setCol (by rw [List.length_map, hlents, l4]), l4]
      have l6 : F6.rows.length = df.rows.length := by
        rw [hF6, length_rows_setCol (by rw [List.length_map, hlents, l5]), l5]
      have hwk : (F6.setCol "is_weekend"
          ((ts.map dtDayOfWeek).map weekendValue)).getCol "is_weekend" =
          (ts.map dtDayOfWeek).map weekendValue :=
        getCol_setCol_self_any w6 (by rw [List.length_map, List.length_map, hlents, l6])
      have hdw1 : (F6.setCol "is_weekend"
          ((ts.map dtDayOfWeek).map weekendValue)).getCol "day_of_week" =
          F6.getCol "day_of_week" :=
        getCol_setCol_ne_any w6 (by decide)
          (by rw [List.length_map, List.length_map, hlents, l6])
      have hdw2 : F6.getCol "day_of_week" = ts.map dtDayOfWeek := by
        rw [hF6]
        exact getCol_setCol_self_any w5 (by rw [List.length_map, hlents, l5])
      rw [hwk, hdw1, hdw2]
  · rw [if_neg hc] at hok
    exact absurd hok (by simp)

/-- C5: `add_time_features` derives exactly the six columns `year`,
`month`, `day`, `hour`, `day_of_week` (0 = Monday .. 6 = Sunday) and
`is_weekend`: on rows with timestamps `2024-03-09T15:30:00` (a Saturday)
and `2024-03-11T08:00:00` (a Monday) the derived values are
`2024/3/9/15/5/1` and `2024/3/11/8/0/0`, and in general the `is_weekend`
column is `1` exactly on rows whose `day_of_week` is `5` or `6`. -/
theorem add_time_features_fields :
    (∃ out, add_time_features ⟨["Timestamp"],
        [[Value.str "2024-03-09T15:30:00"], [Value.str "2024-03-11T08:00:00"]]⟩
        "Timestamp" = Except.ok out ∧
      out.cols = ["Timestamp", "year", "month", "day", "hour",
        "day_of_week", "is_weekend"] ∧
      out.getCol "year" = [Value.int 2024, Value.int 2024] ∧
      out.getCol "month" = [Value.int 3, Value.int 3] ∧
      out.getCol "day" = [Value.int 9, Value.int 11] ∧
      out.getCol "hour" = [Value.int 15, Value.int 8] ∧
      out.getCol "day_of_week" = [Value.int 5, Value.int 0] ∧
      out.getCol "is_weekend" = [Value.int 1, Value.int 0]) ∧
    ((∀ w : Int, weekendValue (Value.int w) = Value.int 1 ↔ (w = 5 ∨ w = 6)) ∧
      ∀ (df : DataFrame) (c : String) (out : DataFrame), WF df →
        add_time_features df c = Except.ok out →
        out.getCol "is_weekend" = (out.getCol "day_of_week").map weekendValue) := by
  refine ⟨⟨⟨["Timestamp", "year", "month", "day", "hour", "day_of_week", "is_weekend"],
      [[Value.dt ⟨2024, 3, 9, 15, 30, 0⟩, Value.int 2024, Value.int 3, Value.int 9,
        Value.int 15, Value.int 5, Value.int 1],
       [Value.dt ⟨2024, 3, 11, 8, 0, 0⟩, Value.int 2024, Value.int 3, Value.int 11,
        Value.int 8, Value.int 0, Value.int 0]]⟩,
    rfl, by decide, by decide, by decide, by decide, by decide, by decide,
    by decide⟩, ?_, add_time_features_weekend_rel⟩
  intro w
  constructor
  · intro h
    by_cases h5 : w = 5
    · exact Or.inl h5
    · by_cases h6 : w = 6
      · exact Or.inr h6
      · rw [weekendValue, if_neg (by tauto)] at h
        exact absurd h (by simp)
  · rintro (rfl | rfl) <;> rfl

/-- C5 witness: the general `is_weekend` relation instantiated on a
concrete run. -/
theorem add_time_features_fields_witness :
    DataFrame.getCol ⟨["Timestamp", "year", "month", "day", "hour",
        "day_of_week", "is_weekend"],
      [[Value.dt ⟨2024, 3, 9, 15, 30, 0⟩, Value.int 2024, Value.int 3, Value.int 9,
        Value.int 15, Value.int 5, Value.int 1]]⟩ "is_weekend" =
      (DataFrame.getCol ⟨["Timestamp", "year", "month", "day", "hour",
          "day_of_week", "is_weekend"],
        [[Value.dt ⟨2024, 3, 9, 15, 30, 0⟩, Value.int 2024, Value.int 3, Value.int 9,
          Value.int 15, Value.int 5, Value.int 1]]⟩ "day_of_week").map weekendValue ∧
    weekendValue (Value.int 5) = Value.int 1 :=
  ⟨add_time_features_fields.2.2 ⟨["Timestamp"], [[Value.str "2024-03-09T15:30:00"]]⟩
      "Timestamp" _ (by decide) rfl,
   (add_time_features_fields.2.1 5).mpr (Or.inl rfl)⟩

/-- C8: `load_data` raises a file-not-found error for every path with no
file behind it, and an empty-data error for every existing zero-byte file;
in both cases the result is an error, never a dataframe. -/
theorem load_data_errors (fs : FileSystem) (path : String) (drop_unnamed : Bool) :
    (fs path = none →
      load_data fs path drop_unnamed =
        Except.error (LoadError.fileNotFound ("File not found: " ++ path))) ∧
    (fs path = some "" →
      load_data fs path drop_unnamed =
        Except.error (LoadError.emptyData ("Empty CSV file: " ++ path))) := by
  constructor
  · intro h
    have hread : read_csv fs path = Except.error (LoadError.fileNotFound path) := by
      rw [read_csv, h]
    rw [load_data, hread]
  · intro h
    have hread : read_csv fs path = Except.error (LoadError.emptyData path) := by
      rw [read_csv, h]
      rfl
    rw [load_data, hread]

/-- C8 witness: a concrete filesystem with one empty file: loading a
missing path and loading the zero-byte file both error as claimed. -/
theorem load_data_errors_witness :
    load_data (fun p => if p = "data.csv" then some "" else none) "missing.csv" true =
      Except.error (LoadError.fileNotFound "File not found: missing.csv") ∧
    load_data (fun p => if p = "data.csv" then some "" else none) "data.csv" true =
      Except.error (LoadError.emptyData "Empty CSV file: data.csv") :=
  ⟨(load_data_errors (fun p => if p = "data.csv" then some "" else none)
      "missing.csv" true).1 (by decide),
   (load_data_errors (fun p => if p = "data.csv" then some "" else none)
      "data.csv" true).2 (by decide)⟩

/-- C9: the pipeline entry point `clean_data` is exactly the composition
of the five stage functions in the fixed order categorical-clean → dedupe
→ validate → map-sentiment → time-features, each gated by its boolean flag
(the last two additionally on their column being present); of
`validate_data`'s result only the dataframe state survives — the report is
dropped — and the return value is the final dataframe (so with every stage
disabled the input comes back unchanged). -/
theorem clean_data_stages (df : DataFrame)
    (remove_dups clean_categorical validate map_sentiment add_time : Bool) :
    (clean_data df remove_dups clean_categorical validate map_sentiment add_time =
      (let df1 := if clean_categorical then clean_categorical_columns df none else df
       let df2 := if remove_dups then remove_duplicates df1 else df1
       let df3 := if validate then (validate_data df2).2 else df2
       match (if map_sentiment ∧ df3.cols.contains "Sentiment"
              then map_sentiments df3 "Sentiment" "full" else Except.ok df3) with
       | Except.error e => Except.error e
       | Except.ok df4 =>
         match (if add_time ∧ df4.cols.contains "Timestamp"
                then add_time_features df4 "Timestamp" else Except.ok df4) with
         | Except.error e => Except.error e
         | Except.ok df5 => Except.ok df5)) ∧
    clean_data df false false false false false = Except.ok df := by
  constructor
  · rfl
  · rw [clean_data]
    simp

end SentimentPipeline
